import Mathlib

/-!
A verification development for the BotControl repository.

The repository ships two kinds of material:

* `src/static/script.js` — the dashboard front end.  Its functions
  (`checkBotStatus`, `updateBotStatus`, `updateStatistics`, `animateNumber`)
  are translated here directly from the JavaScript source.

* The moderation/administration core described by the specification
  (persistence store, authorization, channel registry, moderation engine).
  That code is not present under `src/`, so the definitions for it are
  modelled from the specification text; each such definition carries a
  doc comment starting with `Modelled from the spec:`.

Machine integers of the source become `Int`/`Nat`; fallible operations
return `Except`; JavaScript's unbounded recursion becomes fuel-indexed
recursion, with termination expressed as existence of sufficient fuel.
-/

namespace BotControl

/-- Modelled from the spec: the role resolved for a user identifier
(none / admin / super-admin); the authorization component is not under
`src/`. -/
inductive Role where
  | none
  | admin
  | superAdmin
deriving DecidableEq, Repr

/-- Modelled from the spec: the error taxonomy of section 7; the core
implementing it is not under `src/`. -/
inductive BotError where
  | permissionDenied
  | notFound
  | alreadyRegistered
  | alreadyAdmin
  | notAnAdmin
  | invalidPattern
  | storageUnavailable
deriving DecidableEq, Repr

/-- Modelled from the spec: an Admin record
`{userID, grantedBy, grantedAt, isSuperAdmin}`. -/
structure Admin where
  userID : Int
  grantedBy : Option Int
  grantedAt : Nat
  isSuperAdmin : Bool
deriving DecidableEq, Repr

/-- Modelled from the spec: a Channel record
`{channelID, title, addedBy, addedAt, isActive}`. -/
structure Channel where
  channelID : Int
  title : String
  addedBy : Int
  addedAt : Nat
  isActive : Bool
deriving DecidableEq, Repr

/-- Modelled from the spec: the match mode of a keyword rule. -/
inductive MatchMode where
  | substring
  | regex
  | wholeWord
deriving DecidableEq, Repr

/-- Modelled from the spec: a KeywordRule record
`{pattern, matchMode, addedBy, addedAt}`. -/
structure KeywordRule where
  pattern : String
  matchMode : MatchMode
  addedBy : Int
  addedAt : Nat
deriving DecidableEq, Repr

/-- Modelled from the spec: a ModerationCounter record
`{totalMessagesSeen, totalBlocked, lastBlockedAt}`. -/
structure ModerationCounter where
  totalMessagesSeen : Nat
  totalBlocked : Nat
  lastBlockedAt : Option Nat
deriving DecidableEq, Repr

/-- Modelled from the spec: counter records exist per channel plus one
aggregate global record. -/
inductive CounterKey where
  | channel (channelID : Int)
  | global
deriving DecidableEq, Repr

/-- Modelled from the spec: the moderation action of a decision. -/
inductive ModerationAction where
  | allow
  | block
deriving DecidableEq, Repr

/-- Modelled from the spec: the transient per-message ModerationDecision
`{action, matchedRule}`. -/
structure ModerationDecision where
  action : ModerationAction
  matchedRule : Option KeywordRule
deriving DecidableEq, Repr

/-- Modelled from the spec: the persistence store's four collections
(`admins`, `channels`, `keywords`, `counters`), with a reachability flag;
when the durable medium is unreachable every read fails with
`StorageUnavailable`.  The keyword list is kept in insertion order of
addition, as required for rule evaluation. -/
structure Store where
  available : Bool
  admins : List Admin
  channels : List Channel
  keywords : List KeywordRule
  counters : CounterKey → ModerationCounter

/-- Modelled from the spec: pure role lookup over the admin collection. -/
def rolePure (admins : List Admin) (userID : Int) : Role :=
  match admins.find? (fun a => a.userID == userID) with
  | some a => if a.isSuperAdmin then Role.superAdmin else Role.admin
  | Option.none => Role.none

/-- Modelled from the spec: `RoleOf(userID)` — a pure lookup that fails
only on `StorageUnavailable`. -/
def roleOf (s : Store) (userID : Int) : Except BotError Role :=
  if s.available then Except.ok (rolePure s.admins userID)
  else Except.error BotError.storageUnavailable

/-- Modelled from the spec: a `List(channels)` read from the store. -/
def listChannelsE (s : Store) : Except BotError (List Channel) :=
  if s.available then Except.ok s.channels
  else Except.error BotError.storageUnavailable

/-- Modelled from the spec: a `List(keywords)` read from the store. -/
def listKeywordsE (s : Store) : Except BotError (List KeywordRule) :=
  if s.available then Except.ok s.keywords
  else Except.error BotError.storageUnavailable

/-- Modelled from the spec: lookup of a channel record by its key. -/
def findChannel (channels : List Channel) (channelID : Int) : Option Channel :=
  channels.find? (fun c => c.channelID == channelID)

/-- Modelled from the spec: the pure content of `ListActiveChannels`. -/
def activeChannels (s : Store) : List Channel :=
  s.channels.filter (fun c => c.isActive)

/-- Modelled from the spec: `ListActiveChannels()` — read-only, fails only
on `StorageUnavailable`. -/
def listActiveChannels (s : Store) : Except BotError (List Channel) :=
  if s.available then Except.ok (activeChannels s)
  else Except.error BotError.storageUnavailable

/-- Modelled from the spec: the record update applied to the stored
channel on re-activation — `isActive := true`, `addedBy` set to the
re-activating actor, `title` refreshed, `addedAt` untouched. -/
def reactivateRecord (actorID channelID : Int) (title : String)
    (c : Channel) : Channel :=
  if c.channelID == channelID then
    { c with isActive := true, addedBy := actorID, title := title }
  else c

/-- Modelled from the spec: the record update applied on channel removal —
`isActive := false`, everything else (history) preserved. -/
def deactivateRecord (channelID : Int) (c : Channel) : Channel :=
  if c.channelID == channelID then { c with isActive := false } else c

/-- Modelled from the spec: `AddChannel(actorID, channelID, title)` —
requires `RoleOf(actorID) != none`; `AlreadyRegistered` if present and
active; re-activation of a deactivated channel preserves the original
`addedAt` and updates `addedBy` to the re-activating actor; otherwise a
fresh record is created with `addedAt = now`. -/
def addChannel (s : Store) (actorID channelID : Int) (title : String)
    (now : Nat) : Except BotError Unit × Store :=
  match roleOf s actorID with
  | Except.error e => (Except.error e, s)
  | Except.ok role =>
    if role = Role.none then (Except.error BotError.permissionDenied, s)
    else
      match findChannel s.channels channelID with
      | some ch =>
        if ch.isActive then (Except.error BotError.alreadyRegistered, s)
        else
          (Except.ok (),
            { s with channels := s.channels.map (reactivateRecord actorID channelID title) })
      | Option.none =>
        (Except.ok (), { s with channels := s.channels ++
          [{ channelID := channelID, title := title, addedBy := actorID,
             addedAt := now, isActive := true }] })

/-- Modelled from the spec: `RemoveChannel(actorID, channelID)` — requires
`RoleOf(actorID) != none`; marks `isActive := false` (deactivation, not
hard deletion); `NotFound` if the channel is unknown. -/
def removeChannel (s : Store) (actorID channelID : Int) :
    Except BotError Unit × Store :=
  match roleOf s actorID with
  | Except.error e => (Except.error e, s)
  | Except.ok role =>
    if role = Role.none then (Except.error BotError.permissionDenied, s)
    else
      match findChannel s.channels channelID with
      | Option.none => (Except.error BotError.notFound, s)
      | some _ =>
        (Except.ok (),
          { s with channels := s.channels.map (deactivateRecord channelID) })

/-- Modelled from the spec: `RevokeAdmin(actorID, targetID)` — succeeds
only if `RoleOf(actorID) == superAdmin` and the target is a non-super
admin; fails with `PermissionDenied` or `NotAnAdmin` otherwise (the
super-admin record cannot be deleted through this path). -/
def revokeAdmin (s : Store) (actorID targetID : Int) :
    Except BotError Unit × Store :=
  match roleOf s actorID with
  | Except.error e => (Except.error e, s)
  | Except.ok actorRole =>
    if actorRole = Role.superAdmin then
      match rolePure s.admins targetID with
      | Role.none => (Except.error BotError.notAnAdmin, s)
      | Role.superAdmin => (Except.error BotError.permissionDenied, s)
      | Role.admin =>
        (Except.ok (),
          { s with admins := s.admins.filter (fun a => !(a.userID == targetID)) })
    else (Except.error BotError.permissionDenied, s)

/-- Modelled from the spec: case-insensitive substring containment over
character lists (used by `substring` match mode). -/
def charsContain (p : List Char) : List Char → Bool
  | [] => p.isEmpty
  | c :: rest => p.isPrefixOf (c :: rest) || charsContain p rest

/-- Modelled from the spec: split a character list into its maximal
alphanumeric runs (word tokens bounded by non-alphanumeric characters),
used by `wholeWord` match mode. -/
def wordTokensAux (acc : List Char) : List Char → List (List Char)
  | [] => if acc.isEmpty then [] else [acc.reverse]
  | c :: rest =>
    if c.isAlphanum then wordTokensAux (c :: acc) rest
    else if acc.isEmpty then wordTokensAux [] rest
    else acc.reverse :: wordTokensAux [] rest

/-- Modelled from the spec: the word tokens of a character list. -/
def wordTokens (t : List Char) : List (List Char) :=
  wordTokensAux [] t

/-- Modelled from the spec: whether one keyword rule matches a message
text.  `substring` is case-insensitive containment; `wholeWord` is a
case-insensitive match bounded by non-alphanumeric boundaries; `regex`
evaluation is abstracted as the parameter `rm` (the compiled matcher,
`pattern -> text -> Bool`), since the engine code is not under `src/`. -/
def ruleMatches (rm : String → String → Bool) (r : KeywordRule)
    (text : String) : Bool :=
  let t := text.toList.map Char.toLower
  let p := r.pattern.toList.map Char.toLower
  match r.matchMode with
  | MatchMode.substring => charsContain p t
  | MatchMode.wholeWord => (wordTokens t).contains p
  | MatchMode.regex => rm r.pattern text

/-- Modelled from the spec: a message text is empty or whitespace-only. -/
def isBlank (text : String) : Bool :=
  text.toList.all Char.isWhitespace

/-- Modelled from the spec: one counter bump — `totalMessagesSeen` always
increments; on a block, `totalBlocked` increments and `lastBlockedAt` is
set. -/
def bumpCounter (blocked : Bool) (now : Nat) (c : ModerationCounter) :
    ModerationCounter :=
  { totalMessagesSeen := c.totalMessagesSeen + 1,
    totalBlocked := c.totalBlocked + (if blocked then 1 else 0),
    lastBlockedAt := if blocked then some now else c.lastBlockedAt }

/-- Modelled from the spec: the atomic counter update of step 5 —
increments the per-channel and the global ModerationCounter together. -/
def updateCounters (s : Store) (channelID : Int) (blocked : Bool)
    (now : Nat) : Store :=
  { s with counters := fun k =>
      if k = CounterKey.channel channelID ∨ k = CounterKey.global then
        bumpCounter blocked now (s.counters k)
      else s.counters k }

/-- Modelled from the spec: the allow decision with no matched rule. -/
def allowDecision : ModerationDecision :=
  { action := ModerationAction.allow, matchedRule := Option.none }

/-- Modelled from the spec: the fallible body of `EvaluateMessage` —
intake (inactive or unknown channels are out of scope, no counters),
exemption check via `RoleOf`, the blank-text edge case, rule evaluation
in insertion order stopping at the first match, and the counter update. -/
def evalCore (rm : String → String → Bool) (s : Store)
    (channelID senderID : Int) (text : String) (now : Nat) :
    Except BotError (ModerationDecision × Store) :=
  match listChannelsE s with
  | Except.error e => Except.error e
  | Except.ok chs =>
    match findChannel chs channelID with
    | Option.none => Except.ok (allowDecision, s)
    | some ch =>
      if ch.isActive then
        match roleOf s senderID with
        | Except.error e => Except.error e
        | Except.ok role =>
          if role = Role.none then
            if isBlank text then
              Except.ok (allowDecision, updateCounters s channelID false now)
            else
              match listKeywordsE s with
              | Except.error e => Except.error e
              | Except.ok rules =>
                match rules.find? (fun r => ruleMatches rm r text) with
                | some r =>
                  Except.ok
                    ({ action := ModerationAction.block, matchedRule := some r },
                     updateCounters s channelID true now)
                | Option.none =>
                  Except.ok (allowDecision, updateCounters s channelID false now)
          else
            Except.ok (allowDecision, updateCounters s channelID false now)
      else Except.ok (allowDecision, s)

/-- Modelled from the spec: `EvaluateMessage(channelID, senderID, text)`
with the fail-open policy — on `StorageUnavailable` the decision defaults
to `allow` and counter updates are skipped. -/
def evaluateMessage (rm : String → String → Bool) (s : Store)
    (channelID senderID : Int) (text : String) (now : Nat) :
    ModerationDecision × Store :=
  match evalCore rm s channelID senderID text now with
  | Except.ok r => r
  | Except.error _ => (allowDecision, s)

/-- Translated from `src/static/script.js`: the longest leading digit run
of a character list, as read by JavaScript `parseInt` (`none` when there
is no leading digit, i.e. `parseInt` yields `NaN`). -/
def leadingDigits (cs : List Char) : Option Nat :=
  let ds := cs.takeWhile Char.isDigit
  if ds.isEmpty then Option.none
  else some (ds.foldl (fun acc c => acc * 10 + (c.toNat - 48)) 0)

/-- Translated from `src/static/script.js`: JavaScript
`parseInt(text)` in base 10 — skip leading whitespace, read an optional
sign and then the longest digit run, ignoring the rest of the string;
`none` models `NaN`. -/
def parseIntJS (text : String) : Option Int :=
  match text.toList.dropWhile Char.isWhitespace with
  | '-' :: rest => (leadingDigits rest).map (fun n => -(n : Int))
  | '+' :: rest => (leadingDigits rest).map (fun n => (n : Int))
  | cs => (leadingDigits cs).map (fun n => (n : Int))

/-- Translated from `src/static/script.js`: group a reversed digit list
into blocks of three (least-significant block first). -/
def chunksRev : List Char → List (List Char)
  | [] => []
  | a :: b :: c :: rest => [a, b, c] :: chunksRev rest
  | l => [l]

/-- Translated from `src/static/script.js`: JavaScript
`Number.prototype.toLocaleString()` for integers, rendered with the
en-US thousands grouping the dashboard displays (`1000 ↦ "1,000"`). -/
def toLocaleStringJS (n : Int) : String :=
  let ds := (toString n.natAbs).toList
  let grouped := (List.intersperse [','] (chunksRev ds.reverse)).flatten.reverse
  (if n < 0 then "-" else "") ++ String.mk grouped

/-- Translated from `src/static/script.js` (`animateNumber`): the
increment `Math.ceil(Math.abs(targetValue - currentValue) / 20)`. -/
def animInc (current target : Int) : Int :=
  ((((target - current).natAbs + 19) / 20 : Nat) : Int)

/-- Translated from `src/static/script.js` (`animateNumber`): one frame of
the `animate` closure — re-parse the element text (`parseInt(...) || 0`),
and while the value is strictly on the start side of `targetValue`, write
the clamped next value (`Math.min`/`Math.max`); `none` means the loop
condition failed and the frame writes `targetValue.toLocaleString()`. -/
def animateStep (increment : Int) (isIncreasing : Bool) (target : Int)
    (text : String) : Option String :=
  let current := (parseIntJS text).getD 0
  if (isIncreasing && decide (current < target)) ||
      (!isIncreasing && decide (current > target)) then
    let newValue :=
      if isIncreasing then min (current + increment) target
      else max (current - increment) target
    some (toLocaleStringJS newValue)
  else Option.none

/-- Translated from `src/static/script.js` (`animateNumber`): the
`requestAnimationFrame` recursion, made fuel-indexed; `some finalText`
when the animation reaches its terminal frame within `fuel` frames,
`none` otherwise. -/
def animateLoop (increment : Int) (isIncreasing : Bool) (target : Int) :
    Nat → String → Option String
  | 0, _ => Option.none
  | fuel + 1, text =>
    match animateStep increment isIncreasing target text with
    | some next => animateLoop increment isIncreasing target fuel next
    | Option.none => some (toLocaleStringJS target)

/-- Translated from `src/static/script.js`: `animateNumber(element,
targetValue)` — the element's initial text gives
`parseInt(element.textContent) || 0`, fixing `increment` and
`isIncreasing` for the whole animation. -/
def animateNumber (fuel : Nat) (text : String) (target : Int) :
    Option String :=
  let current := (parseIntJS text).getD 0
  animateLoop (animInc current target) (decide (target > current)) target
    fuel text

/-- The animation run by `animateNumber` reaches its terminal frame on
this element text and target value, for some number of frames. -/
def TerminatesOn (text : String) (target : Int) : Prop :=
  ∃ fuel result, animateNumber fuel text target = some result

/-- Translated from `src/static/script.js`: a JSON value of the `/stats`
response, as far as the dashboard inspects one (a number or `null`;
an absent key models `undefined`). -/
inductive JVal where
  | num (n : Int)
  | null
deriving DecidableEq, Repr

/-- Translated from `src/static/script.js` (`updateStatistics`): the
JavaScript `value || 0` default applied to a possibly missing field,
followed by `parseInt(value)`. -/
def jsNumDefault (v : Option JVal) : Int :=
  match v with
  | some (JVal.num n) => n
  | some JVal.null => 0
  | Option.none => 0

/-- Translated from `src/static/script.js` lines 124-129: the element ids
of the stat cards and the `/stats` response keys each one reads. -/
def statsBindings : List (String × String) :=
  [("total-users", "total_users"),
   ("total-channels", "total_channels"),
   ("total-keywords", "total_keywords"),
   ("blocked-messages", "blocked_messages")]

/-- Translated from `src/static/script.js` (`updateStatistics`): the
`statElements` object — each stat-card id paired with the defaulted
numeric value taken from the `/stats` response. -/
def statElements (data : List (String × JVal)) : List (String × Int) :=
  statsBindings.map (fun b => (b.1, jsNumDefault (data.lookup b.2)))

/-- Translated from `src/static/script.js` (`updateStatistics`): the
values rendered into stat cards — each entry of `statElements` whose
element id exists in the DOM (`document.getElementById` non-null);
missing elements are skipped. -/
def updateStatistics (dom : List String) (data : List (String × JVal)) :
    List (String × Int) :=
  (statElements data).filter (fun p => dom.contains p.1)

/-- Translated from `src/static/script.js` line 139 (`updateStatistics`):
the `data.bot_running` flag forwarded to `updateBotStatus`, under
JavaScript truthiness. -/
def dashboardBotFlag (data : List (String × JVal)) : Bool :=
  match data.lookup "bot_running" with
  | some (JVal.num n) => decide (n ≠ 0)
  | some JVal.null => false
  | Option.none => false

/-- The five `/stats` response keys the dashboard reads: the four stat
fields of `statsBindings` plus `bot_running` (`src/static/script.js`
lines 124-129 and 139). -/
def statsKeysRead : List String :=
  (statsBindings.map (fun b => b.2)) ++ ["bot_running"]

/-- Modelled from the spec: the field names of the `GetStats()` record,
`{totalAdmins, totalChannels, totalKeywords, totalBlocked,
perChannelCounters}`; the server code implementing `GetStats` is not
under `src/`. -/
def getStatsFields : List String :=
  ["totalAdmins", "totalChannels", "totalKeywords", "totalBlocked",
   "perChannelCounters"]

/-- Translated from `src/static/script.js`: the `/health` response as far
as `checkBotStatus` inspects it. -/
structure HealthResponse where
  status : Option String
  bot_running : Option Bool
deriving DecidableEq, Repr

/-- Translated from `src/static/script.js` (`checkBotStatus`): the online
flag passed to `updateBotStatus` — `data.status === 'healthy' &&
data.bot_running` on a successful fetch, `false` when the fetch or JSON
parse throws. -/
def checkBotStatusOnline (resp : Except Unit HealthResponse) : Bool :=
  match resp with
  | Except.error _ => false
  | Except.ok d => (d.status == some "healthy") && d.bot_running.getD false

/-- Translated from `src/static/script.js` (`updateBotStatus` line 68):
the status text rendered for the given online flag. -/
def botStatusText (isOnline : Bool) : String :=
  if isOnline then "Online" else "Offline"

/-- A trivial compiled-regex matcher used to instantiate the abstract
`rm` parameter on concrete inputs. -/
def rmFalse : String → String → Bool := fun _ _ => false

/-- The all-zero moderation counter. -/
def zeroCounter : ModerationCounter :=
  { totalMessagesSeen := 0, totalBlocked := 0, lastBlockedAt := Option.none }

/-- A concrete store: super-admin `1`, admin `2` granted by `1`, active
channel `100`, and one substring rule added by `2` (the scenario of the
specification's section 8). -/
def demoStore : Store :=
  { available := true,
    admins := [{ userID := 1, grantedBy := Option.none, grantedAt := 0,
                 isSuperAdmin := true },
               { userID := 2, grantedBy := some 1, grantedAt := 1,
                 isSuperAdmin := false }],
    channels := [{ channelID := 100, title := "Movies", addedBy := 2,
                   addedAt := 3, isActive := true }],
    keywords := [{ pattern := "leaked-cam", matchMode := MatchMode.substring,
                   addedBy := 2, addedAt := 4 }],
    counters := fun _ => zeroCounter }

/-- A concrete store whose only keyword rule has the single-space pattern
in substring mode. -/
def wsStore : Store :=
  { demoStore with keywords :=
      [{ pattern := " ", matchMode := MatchMode.substring, addedBy := 1,
         addedAt := 0 }] }

/-- The `demoStore` with the durable medium unreachable. -/
def unavailStore : Store := { demoStore with available := false }

/-- `demoStore` after super-admin `1` adds fresh channel `200`. -/
def rtS1 : Store := (addChannel demoStore 1 200 "News" 10).2

/-- `rtS1` after admin `2` removes channel `200`. -/
def rtS2 : Store := (removeChannel rtS1 2 200).2

/-- `rtS2` after admin `2` re-adds channel `200`. -/
def rtS3 : Store := (addChannel rtS2 2 200 "News2" 20).2

/-- The element texts visited forever by `animateNumber` on initial text
`"1"` and target `1000`: the clamped climb writes `"1,000"`, which
`parseInt` re-reads as `1`, restarting the climb. -/
def animCycle : List String :=
  ["1", "51", "101", "151", "201", "251", "301", "351", "401", "451",
   "501", "551", "601", "651", "701", "751", "801", "851", "901", "951",
   "1,000"]

/-- Claim C6: if the persistence store reports `StorageUnavailable` during
evaluation, `EvaluateMessage` fails open — it returns `{action: allow}`
rather than blocking or propagating the error, and the counter updates
are skipped (the store is returned unchanged). -/
theorem storage_unavailable_fails_open (rm : String → String → Bool)
    (s : Store) (channelID senderID : Int) (text : String) (now : Nat)
    (hun : s.available = false) :
    evaluateMessage rm s channelID senderID text now = (allowDecision, s) := by
  simp [evaluateMessage, evalCore, listChannelsE, hun]

/-- Witness for C6: a concrete unreachable store evaluates to `allow`
with the store unchanged. -/
theorem storage_unavailable_fails_open_wit :
    unavailStore.available = false ∧
    evaluateMessage rmFalse unavailStore 100 3 "new leaked-cam rip" 9
      = (allowDecision, unavailStore) :=
  ⟨rfl, storage_unavailable_fails_open rmFalse unavailStore 100 3
    "new leaked-cam rip" 9 rfl⟩

/-- Claim C1: a sender whose role is not `none` (admin or super-admin) is
always allowed in an active channel, whatever the text; the evaluation
still increments `totalMessagesSeen` for that channel and never
increments `totalBlocked`. -/
theorem admin_sender_always_allowed (rm : String → String → Bool)
    (s : Store) (channelID senderID : Int) (text : String) (now : Nat)
    (ch : Channel)
    (hav : s.available = true)
    (hch : findChannel s.channels channelID = some ch)
    (hact : ch.isActive = true)
    (hrole : rolePure s.admins senderID ≠ Role.none) :
    (evaluateMessage rm s channelID senderID text now).1.action
        = ModerationAction.allow ∧
    ((evaluateMessage rm s channelID senderID text now).2.counters
        (CounterKey.channel channelID)).totalMessagesSeen
      = (s.counters (CounterKey.channel channelID)).totalMessagesSeen + 1 ∧
    ((evaluateMessage rm s channelID senderID text now).2.counters
        (CounterKey.channel channelID)).totalBlocked
      = (s.counters (CounterKey.channel channelID)).totalBlocked := by
  simp [evaluateMessage, evalCore, listChannelsE, roleOf, hav, hch, hact,
    hrole, updateCounters, bumpCounter, allowDecision]

/-- Witness for C1: admin `2` sends rule-matching text in active channel
`100` of `demoStore` and is still allowed, with the seen counter bumped. -/
theorem admin_sender_always_allowed_wit :
    (demoStore.available = true ∧
     findChannel demoStore.channels 100
       = some { channelID := 100, title := "Movies", addedBy := 2,
                addedAt := 3, isActive := true } ∧
     rolePure demoStore.admins 2 ≠ Role.none) ∧
    ((evaluateMessage rmFalse demoStore 100 2 "new leaked-cam rip" 9).1.action
        = ModerationAction.allow ∧
     ((evaluateMessage rmFalse demoStore 100 2 "new leaked-cam rip" 9).2.counters
        (CounterKey.channel 100)).totalMessagesSeen
       = (demoStore.counters (CounterKey.channel 100)).totalMessagesSeen + 1 ∧
     ((evaluateMessage rmFalse demoStore 100 2 "new leaked-cam rip" 9).2.counters
        (CounterKey.channel 100)).totalBlocked
       = (demoStore.counters (CounterKey.channel 100)).totalBlocked) :=
  ⟨⟨rfl, rfl, by decide⟩,
   admin_sender_always_allowed rmFalse demoStore 100 2 "new leaked-cam rip" 9
     _ rfl rfl rfl (by decide)⟩

/-- Claim C5: `RevokeAdmin` by any actor who is not the super-admin fails
with `PermissionDenied` and leaves the store (in particular the admin
collection) unchanged; it fails with `NotAnAdmin` when the super-admin
targets a user with no admin role; and it succeeds exactly when the actor
is the super-admin and the target is a non-super admin. -/
theorem revoke_admin_guard (s : Store) (actorID targetID : Int)
    (hav : s.available = true) :
    (rolePure s.admins actorID ≠ Role.superAdmin →
      revokeAdmin s actorID targetID
        = (Except.error BotError.permissionDenied, s)) ∧
    (rolePure s.admins actorID = Role.superAdmin →
      rolePure s.admins targetID = Role.none →
      revokeAdmin s actorID targetID
        = (Except.error BotError.notAnAdmin, s)) ∧
    ((revokeAdmin s actorID targetID).1 = Except.ok () ↔
      (rolePure s.admins actorID = Role.superAdmin ∧
       rolePure s.admins targetID = Role.admin)) := by
  rcases ha : rolePure s.admins actorID <;>
    rcases ht : rolePure s.admins targetID <;>
      simp [revokeAdmin, roleOf, hav, ha, ht]

/-- Witness for C5: in `demoStore`, admin `2` cannot revoke the
super-admin — `PermissionDenied` with the store unchanged. -/
theorem revoke_admin_guard_wit :
    revokeAdmin demoStore 2 1
      = (Except.error BotError.permissionDenied, demoStore) :=
  (revoke_admin_guard demoStore 2 1 rfl).1 (by decide)

/-- Claim C10: the bot is rendered Online exactly when the `/health`
response carries `status == 'healthy'` and a truthy `bot_running`; any
fetch or JSON-parse failure renders Offline instead of keeping the
previous status or throwing. -/
theorem health_badge_rendering :
    (∀ e : Unit,
      botStatusText (checkBotStatusOnline (Except.error e)) = "Offline") ∧
    (∀ d : HealthResponse,
      botStatusText (checkBotStatusOnline (Except.ok d)) = "Online" ↔
        (d.status = some "healthy" ∧ d.bot_running = some true)) := by
  constructor
  · intro e; rfl
  · intro d
    rcases hb : d.bot_running with _ | b <;>
      rcases hs : d.status with _ | sv <;>
        simp [checkBotStatusOnline, botStatusText, hb, hs]

/-- Looking up a key that survives a key-filter is unchanged by the
filter. -/
theorem lookup_filter_keys {keys : List String} {k : String}
    (hk : keys.contains k = true) :
    ∀ data : List (String × JVal),
      (data.filter (fun p => keys.contains p.1)).lookup k = data.lookup k := by
  intro data
  have hkm : k ∈ keys := by simpa using hk
  induction data with
  | nil => rfl
  | cons p rest ih =>
    obtain ⟨k1, v1⟩ := p
    by_cases hkk : k = k1
    · subst hkk
      have hb : (k == k) = true := beq_self_eq_true k
      simp [List.filter_cons, List.lookup, hkm, hb]
    · have hb : (k == k1) = false := beq_eq_false_iff_ne.mpr hkk
      have ih2 : List.lookup k
          (List.filter (fun p => decide (p.1 ∈ keys)) rest)
            = List.lookup k rest := by simpa using ih
      by_cases h : k1 ∈ keys <;>
        simp [List.filter_cons, List.lookup, h, hb, ih2]

/-- Claim C3 counterexample: the dashboard's `/stats` consumer does not
read the field names the specification gives `GetStats`; it reads
`total_users` (absent from the spec shape), never reads `totalAdmins`,
and the two key lists differ. -/
theorem stats_shape_counterexample :
    ("total_users" ∈ statsKeysRead ∧ "total_users" ∉ getStatsFields) ∧
    ("totalAdmins" ∈ getStatsFields ∧ "totalAdmins" ∉ statsKeysRead) ∧
    statsKeysRead ≠ getStatsFields := by
  decide

/-- Claim C3 (amended): the dashboard's `/stats` consumer reads exactly
the keys `total_users`, `total_channels`, `total_keywords`,
`blocked_messages` and `bot_running` — filtering the response down to
those keys changes nothing it renders — and none of them occurs among
the spec's `GetStats` field names. -/
theorem dashboard_reads_snake_case_keys :
    (∀ (dom : List String) (data : List (String × JVal)),
      updateStatistics dom data =
        updateStatistics dom
          (data.filter (fun p => statsKeysRead.contains p.1))) ∧
    (∀ data : List (String × JVal),
      dashboardBotFlag data =
        dashboardBotFlag
          (data.filter (fun p => statsKeysRead.contains p.1))) ∧
    (∀ k ∈ statsKeysRead, k ∉ getStatsFields) := by
  refine ⟨?_, ?_, by decide⟩
  · intro dom data
    unfold updateStatistics statElements statsBindings
    simp only [List.map_cons, List.map_nil]
    rw [lookup_filter_keys (k := "total_users") (by decide) data,
        lookup_filter_keys (k := "total_channels") (by decide) data,
        lookup_filter_keys (k := "total_keywords") (by decide) data,
        lookup_filter_keys (k := "blocked_messages") (by decide) data]
  · intro data
    unfold dashboardBotFlag
    rw [lookup_filter_keys (k := "bot_running") (by decide) data]

/-- Witness for the amended C3: the key the dashboard reads first is not
a `GetStats` field. -/
theorem dashboard_reads_snake_case_keys_wit :
    "total_users" ∉ getStatsFields :=
  dashboard_reads_snake_case_keys.2.2 "total_users" (by decide)

/-- Claim C9: a `/stats` field that is absent or `null` renders as `0`
on its stat card (via the JavaScript `|| 0` default) rather than failing
or showing `NaN`, and stat cards whose element is missing from the DOM
are skipped entirely. -/
theorem missing_stats_render_zero :
    ∀ (dom : List String) (data : List (String × JVal)) (elemId key : String),
      (elemId, key) ∈ statsBindings →
      (data.lookup key = Option.none ∨ data.lookup key = some JVal.null) →
      (elemId ∈ dom → (elemId, (0 : Int)) ∈ updateStatistics dom data) ∧
      (elemId ∉ dom → ∀ v : Int, (elemId, v) ∉ updateStatistics dom data) := by
  intro dom data elemId key hb hmiss
  have hval : jsNumDefault (data.lookup key) = 0 := by
    rcases hmiss with h | h <;> simp [h, jsNumDefault]
  constructor
  · intro hdom
    unfold updateStatistics
    rw [List.mem_filter]
    constructor
    · unfold statElements
      rw [List.mem_map]
      exact ⟨(elemId, key), hb, by simp [hval]⟩
    · simpa using hdom
  · intro hdom v hmem
    unfold updateStatistics at hmem
    rw [List.mem_filter] at hmem
    exact hdom (by simpa using hmem.2)

/-- Witness for C9: an empty `/stats` response renders `0` on the
`total-users` card. -/
theorem missing_stats_render_zero_wit :
    ("total-users", (0 : Int)) ∈ updateStatistics ["total-users"] [] :=
  (missing_stats_render_zero ["total-users"] [] "total-users" "total_users"
    (by decide) (Or.inl rfl)).1 (by decide)

/-- Claim C2 counterexample: in `wsStore` the single-space substring rule
matches the whitespace-only text `" "`, the sender has no role and the
channel is active, yet `EvaluateMessage` returns `allow`, not `block` —
the blank-text edge case (allow without consulting rules) precedes rule
evaluation. -/
theorem whitespace_match_not_blocked :
    (∃ r ∈ wsStore.keywords, ruleMatches rmFalse r " " = true) ∧
    rolePure wsStore.admins 3 = Role.none ∧
    findChannel wsStore.channels 100
      = some { channelID := 100, title := "Movies", addedBy := 2,
               addedAt := 3, isActive := true } ∧
    (evaluateMessage rmFalse wsStore 100 3 " " 9).1.action
      = ModerationAction.allow ∧
    (evaluateMessage rmFalse wsStore 100 3 " " 9).1.action
      ≠ ModerationAction.block := by
  decide

/-- Claim C2 (amended): for a sender with no role in an active channel,
with the store available and the text not empty/whitespace-only, a text
matching at least one keyword rule is blocked, and `matchedRule` is the
earliest-added matching rule — evaluation walks the rule list in
insertion order and stops at the first match, so every rule before the
matched one fails. -/
theorem first_matching_rule_blocks (rm : String → String → Bool)
    (s : Store) (channelID senderID : Int) (text : String) (now : Nat)
    (ch : Channel)
    (hav : s.available = true)
    (hch : findChannel s.channels channelID = some ch)
    (hact : ch.isActive = true)
    (hrole : rolePure s.admins senderID = Role.none)
    (hnb : isBlank text = false)
    (hex : ∃ r ∈ s.keywords, ruleMatches rm r text = true) :
    (evaluateMessage rm s channelID senderID text now).1.action
      = ModerationAction.block ∧
    ∃ r l1 l2,
      (evaluateMessage rm s channelID senderID text now).1.matchedRule
        = some r ∧
      ruleMatches rm r text = true ∧
      s.keywords = l1 ++ r :: l2 ∧
      ∀ r2 ∈ l1, ruleMatches rm r2 text = false := by
  have hsome : (s.keywords.find? (fun r => ruleMatches rm r text)).isSome := by
    rw [List.find?_isSome]; exact hex
  obtain ⟨r, hr⟩ := Option.isSome_iff_exists.mp hsome
  obtain ⟨hpr, l1, l2, hsplit, hfail⟩ := List.find?_eq_some.mp hr
  refine ⟨?_, r, l1, l2, ?_, hpr, hsplit, ?_⟩
  · simp [evaluateMessage, evalCore, listChannelsE, listKeywordsE, roleOf,
      hav, hch, hact, hrole, hnb, hr]
  · simp [evaluateMessage, evalCore, listChannelsE, listKeywordsE, roleOf,
      hav, hch, hact, hrole, hnb, hr]
  · intro r2 h2
    simpa using hfail r2 h2

/-- Witness for the amended C2: user `3` (no role) posts text containing
`leaked-cam` in active channel `100` of `demoStore`; the message is
blocked with the earliest-added matching rule reported. -/
theorem first_matching_rule_blocks_wit :
    (evaluateMessage rmFalse demoStore 100 3 "new LEAKED-cam rip" 9).1.action
      = ModerationAction.block ∧
    ∃ r l1 l2,
      (evaluateMessage rmFalse demoStore 100 3 "new LEAKED-cam rip" 9).1.matchedRule
        = some r ∧
      ruleMatches rmFalse r "new LEAKED-cam rip" = true ∧
      demoStore.keywords = l1 ++ r :: l2 ∧
      ∀ r2 ∈ l1, ruleMatches rmFalse r2 "new LEAKED-cam rip" = false :=
  first_matching_rule_blocks rmFalse demoStore 100 3 "new LEAKED-cam rip" 9
    { channelID := 100, title := "Movies", addedBy := 2, addedAt := 3,
      isActive := true }
    rfl rfl rfl (by decide) (by decide)
    ⟨{ pattern := "leaked-cam", matchMode := MatchMode.substring,
       addedBy := 2, addedAt := 4 }, by decide, by decide⟩

/-- Re-activation never changes a record's key. -/
theorem reactivateRecord_id (a cid : Int) (ti : String) (c : Channel) :
    (reactivateRecord a cid ti c).channelID = c.channelID := by
  unfold reactivateRecord; split <;> rfl

/-- Deactivation never changes a record's key. -/
theorem deactivateRecord_id (cid : Int) (c : Channel) :
    (deactivateRecord cid c).channelID = c.channelID := by
  unfold deactivateRecord; split <;> rfl

/-- Channel lookup commutes with a key-preserving record update. -/
theorem findChannel_map (l : List Channel) (f : Channel → Channel)
    (cid : Int) (hf : ∀ c, (f c).channelID = c.channelID) :
    findChannel (l.map f) cid = (findChannel l cid).map f := by
  unfold findChannel
  have hp : ((fun c => c.channelID == cid) ∘ f)
      = (fun c => c.channelID == cid) := by
    funext c
    simp [Function.comp_apply, hf c]
  rw [List.find?_map, hp]

/-- `AddChannel` touches only the channel collection. -/
theorem addChannel_frame (s : Store) (a cid : Int) (ti : String)
    (now : Nat) :
    ((addChannel s a cid ti now).2).admins = s.admins ∧
    ((addChannel s a cid ti now).2).available = s.available := by
  unfold addChannel roleOf
  repeat' split
  all_goals exact ⟨rfl, rfl⟩

/-- `RemoveChannel` touches only the channel collection. -/
theorem removeChannel_frame (s : Store) (a cid : Int) :
    ((removeChannel s a cid).2).admins = s.admins ∧
    ((removeChannel s a cid).2).available = s.available := by
  unfold removeChannel roleOf
  repeat' split
  all_goals exact ⟨rfl, rfl⟩

/-- After a permitted `AddChannel`, the channel is present and active —
whether it was fresh, already active, or reactivated. -/
theorem addChannel_active_find (s : Store) (a cid : Int) (ti : String)
    (now : Nat) (hav : s.available = true)
    (hrole : rolePure s.admins a ≠ Role.none) :
    ∃ c1, findChannel ((addChannel s a cid ti now).2).channels cid
        = some c1 ∧ c1.isActive = true := by
  unfold addChannel roleOf
  simp only [hav, if_true]
  rw [if_neg hrole]
  split
  next ch hfind =>
    by_cases hact : ch.isActive = true
    · rw [if_pos hact]
      exact ⟨ch, hfind, hact⟩
    · rw [if_neg hact]
      refine ⟨reactivateRecord a cid ti ch, ?_, ?_⟩
      · show findChannel (s.channels.map (reactivateRecord a cid ti)) cid = _
        rw [findChannel_map _ _ _ (reactivateRecord_id a cid ti), hfind]
        rfl
      · have hcid : (ch.channelID == cid) = true := by
          have h2 : List.find? (fun c => c.channelID == cid) s.channels
              = some ch := hfind
          simpa using List.find?_some h2
        simp [reactivateRecord, hcid]
  next hfind =>
    refine ⟨{ channelID := cid, title := ti, addedBy := a, addedAt := now,
              isActive := true }, ?_, rfl⟩
    unfold findChannel at hfind ⊢
    rw [List.find?_append, hfind]
    simp

/-- A permitted `RemoveChannel` on a known channel maps the collection
through `deactivateRecord`. -/
theorem removeChannel_channels (s : Store) (a cid : Int) (c0 : Channel)
    (hav : s.available = true) (hrole : rolePure s.admins a ≠ Role.none)
    (hfind : findChannel s.channels cid = some c0) :
    (removeChannel s a cid).2.channels
      = s.channels.map (deactivateRecord cid) := by
  unfold removeChannel roleOf
  simp [hav, hrole, hfind]

/-- A permitted `AddChannel` on a known, deactivated channel maps the
collection through `reactivateRecord`. -/
theorem addChannel_reactivates (s : Store) (a cid : Int) (ti : String)
    (now : Nat) (c0 : Channel) (hav : s.available = true)
    (hrole : rolePure s.admins a ≠ Role.none)
    (hfind : findChannel s.channels cid = some c0)
    (hinact : c0.isActive = false) :
    (addChannel s a cid ti now).2.channels
      = s.channels.map (reactivateRecord a cid ti) := by
  unfold addChannel roleOf
  simp [hav, hrole, hfind, hinact]

/-- Claim C4: after a permitted `AddChannel` the channel is listed by
`ListActiveChannels`; after `RemoveChannel` it is excluded; re-running
`AddChannel` on the removed channel restores it to the active list with
its original `addedAt` unchanged and `addedBy` updated to the
re-activating actor. -/
theorem channel_roundtrip (s : Store) (a1 a2 a3 cid : Int)
    (ti1 ti3 : String) (t1 t3 : Nat) (s1 s2 s3 : Store)
    (hav : s.available = true)
    (h1 : rolePure s.admins a1 ≠ Role.none)
    (h2 : rolePure s.admins a2 ≠ Role.none)
    (h3 : rolePure s.admins a3 ≠ Role.none)
    (hs1 : s1 = (addChannel s a1 cid ti1 t1).2)
    (hs2 : s2 = (removeChannel s1 a2 cid).2)
    (hs3 : s3 = (addChannel s2 a3 cid ti3 t3).2) :
    ∃ c1 c3,
      findChannel s1.channels cid = some c1 ∧
      c1 ∈ activeChannels s1 ∧ c1.channelID = cid ∧
      listActiveChannels s1 = Except.ok (activeChannels s1) ∧
      (∀ c ∈ activeChannels s2, c.channelID ≠ cid) ∧
      listActiveChannels s2 = Except.ok (activeChannels s2) ∧
      findChannel s3.channels cid = some c3 ∧
      c3 ∈ activeChannels s3 ∧ c3.channelID = cid ∧
      c3.addedAt = c1.addedAt ∧ c3.addedBy = a3 ∧
      listActiveChannels s3 = Except.ok (activeChannels s3) := by
  have hfr1 := addChannel_frame s a1 cid ti1 t1
  have hav1 : s1.available = true := by rw [hs1, hfr1.2]; exact hav
  have hadm1 : s1.admins = s.admins := by rw [hs1]; exact hfr1.1
  have hfr2 := removeChannel_frame s1 a2 cid
  have hav2 : s2.available = true := by rw [hs2, hfr2.2]; exact hav1
  have hadm2 : s2.admins = s.admins := by rw [hs2, hfr2.1]; exact hadm1
  have hfr3 := addChannel_frame s2 a3 cid ti3 t3
  have hav3 : s3.available = true := by rw [hs3, hfr3.2]; exact hav2
  obtain ⟨c1, hfind1, hact1⟩ := addChannel_active_find s a1 cid ti1 t1 hav h1
  rw [← hs1] at hfind1
  have hfind1f : List.find? (fun c => c.channelID == cid) s1.channels
      = some c1 := hfind1
  have hcid1 : c1.channelID = cid := by
    simpa using List.find?_some hfind1f
  have hc1act : c1 ∈ activeChannels s1 :=
    List.mem_filter.mpr ⟨List.mem_of_find?_eq_some hfind1f, hact1⟩
  have hrole2 : rolePure s1.admins a2 ≠ Role.none := by
    rw [hadm1]; exact h2
  have hch2 : s2.channels = s1.channels.map (deactivateRecord cid) := by
    rw [hs2]; exact removeChannel_channels s1 a2 cid c1 hav1 hrole2 hfind1
  have hfind2 : findChannel s2.channels cid
      = some (deactivateRecord cid c1) := by
    rw [hch2, findChannel_map _ _ _ (deactivateRecord_id cid), hfind1]
    rfl
  have hdc1 : deactivateRecord cid c1 = { c1 with isActive := false } := by
    simp [deactivateRecord, hcid1]
  have hinact2 : (deactivateRecord cid c1).isActive = false := by
    rw [hdc1]
  have hexcl : ∀ c ∈ activeChannels s2, c.channelID ≠ cid := by
    intro c hc hceq
    obtain ⟨hmem, hcact⟩ := List.mem_filter.mp hc
    rw [hch2] at hmem
    obtain ⟨c0, hc0mem, hfc⟩ := List.mem_map.mp hmem
    rw [← hfc, deactivateRecord_id] at hceq
    have hcf : (deactivateRecord cid c0).isActive = false := by
      simp [deactivateRecord, hceq]
    rw [hfc] at hcf
    rw [hcf] at hcact
    simp at hcact
  have hrole3 : rolePure s2.admins a3 ≠ Role.none := by
    rw [hadm2]; exact h3
  have hch3 : s3.channels = s2.channels.map (reactivateRecord a3 cid ti3) := by
    rw [hs3]
    exact addChannel_reactivates s2 a3 cid ti3 t3 _ hav2 hrole3 hfind2 hinact2
  have hfind3 : findChannel s3.channels cid
      = some (reactivateRecord a3 cid ti3 (deactivateRecord cid c1)) := by
    rw [hch3, findChannel_map _ _ _ (reactivateRecord_id a3 cid ti3), hfind2]
    rfl
  have hr3 : reactivateRecord a3 cid ti3 (deactivateRecord cid c1)
      = { c1 with isActive := true, addedBy := a3, title := ti3 } := by
    rw [hdc1]
    simp [reactivateRecord, hcid1]
  rw [hr3] at hfind3
  have hfind3f : List.find? (fun c => c.channelID == cid) s3.channels
      = some { c1 with isActive := true, addedBy := a3, title := ti3 } :=
    hfind3
  refine ⟨c1, { c1 with isActive := true, addedBy := a3, title := ti3 },
    hfind1, hc1act, hcid1, ?_, hexcl, ?_, hfind3, ?_, hcid1, rfl, rfl, ?_⟩
  · simp [listActiveChannels, hav1]
  · simp [listActiveChannels, hav2]
  · exact List.mem_filter.mpr ⟨List.mem_of_find?_eq_some hfind3f, rfl⟩
  · simp [listActiveChannels, hav3]

/-- Witness for C4: the add / remove / re-add cycle on channel `200` of
`demoStore`, with the re-add done by admin `2`. -/
theorem channel_roundtrip_wit :
    ∃ c1 c3,
      findChannel rtS1.channels 200 = some c1 ∧
      c1 ∈ activeChannels rtS1 ∧ c1.channelID = 200 ∧
      listActiveChannels rtS1 = Except.ok (activeChannels rtS1) ∧
      (∀ c ∈ activeChannels rtS2, c.channelID ≠ 200) ∧
      listActiveChannels rtS2 = Except.ok (activeChannels rtS2) ∧
      findChannel rtS3.channels 200 = some c3 ∧
      c3 ∈ activeChannels rtS3 ∧ c3.channelID = 200 ∧
      c3.addedAt = c1.addedAt ∧ c3.addedBy = 2 ∧
      listActiveChannels rtS3 = Except.ok (activeChannels rtS3) :=
  channel_roundtrip demoStore 1 2 2 200 "News" "News2" 10 20 rtS1 rtS2 rtS3
    rfl (by decide) (by decide) (by decide) rfl rfl rfl

/-- The frame increment is never negative. -/
theorem animInc_nonneg (c0 target : Int) : 0 ≤ animInc c0 target := by
  unfold animInc; omega

/-- The frame increment is at least `1` whenever start and target
differ. -/
theorem animInc_pos (c0 target : Int) (h : c0 ≠ target) :
    1 ≤ animInc c0 target := by
  unfold animInc; omega

/-- Every text of `animCycle` steps to another text of `animCycle` under
the frame parameters fixed by initial text `"1"` and target `1000`. -/
theorem animCycle_closed :
    animCycle.all (fun s =>
      (animateStep 50 true 1000 s).elim false
        (fun s2 => animCycle.contains s2)) = true := by
  rfl

/-- Once inside `animCycle`, the animation loop never reaches its
terminal frame, whatever the fuel. -/
theorem animateLoop_cycle_none :
    ∀ (fuel : Nat) (s : String), s ∈ animCycle →
      animateLoop 50 true 1000 fuel s = Option.none := by
  intro fuel
  induction fuel with
  | zero => intro s _; rfl
  | succ n ih =>
    intro s hs
    have hall := animCycle_closed
    rw [List.all_eq_true] at hall
    have hstep := hall s hs
    cases hstep2 : animateStep 50 true 1000 s with
    | none => rw [hstep2] at hstep; simp at hstep
    | some s2 =>
      rw [hstep2] at hstep
      simp only [Option.elim] at hstep
      have hs2 : s2 ∈ animCycle := by simpa using hstep
      simp only [animateLoop, hstep2]
      exact ih s2 hs2

/-- Claim C8 counterexample: from element text `"1"` (which parses to 1)
with target `1000`, `animateNumber` never reaches its terminal frame —
the frame writes `"1,000"`, `parseInt` re-reads it as `1`, and the climb
restarts forever. -/
theorem animate_number_diverges : ¬ TerminatesOn "1" 1000 := by
  rintro ⟨fuel, result, h⟩
  have h2 : animateLoop 50 true 1000 fuel "1" = some result := h
  rw [animateLoop_cycle_none fuel "1" (by decide)] at h2
  exact Option.noConfusion h2

/-- Upward animation run: with a positive increment and a parse/render
round trip on `[lo, target]`, the loop reaches the terminal frame once
the fuel exceeds the distance. -/
theorem animateLoop_up (inc target lo : Int) (hinc : 1 ≤ inc)
    (hrt : ∀ v : Int, lo ≤ v → v ≤ target →
      parseIntJS (toLocaleStringJS v) = some v) :
    ∀ (fuel : Nat) (text : String) (v : Int),
      (parseIntJS text).getD 0 = v → lo ≤ v → v ≤ target →
      (target - v).natAbs < fuel →
      animateLoop inc true target fuel text
        = some (toLocaleStringJS target) := by
  intro fuel
  induction fuel with
  | zero => intro text v _ _ _ hdist; omega
  | succ n ih =>
    intro text v hv hlo hhi hdist
    by_cases heq : v = target
    · have hstep : animateStep inc true target text = Option.none := by
        simp [animateStep, hv, heq]
      simp only [animateLoop, hstep]
    · have hvlt : v < target := lt_of_le_of_ne hhi heq
      have hstep : animateStep inc true target text
          = some (toLocaleStringJS (min (v + inc) target)) := by
        simp [animateStep, hv, hvlt]
      have h1 : min (v + inc) target ≤ target := min_le_right _ _
      have h2 : v + 1 ≤ min (v + inc) target := le_min (by omega) (by omega)
      have hlo2 : lo ≤ min (v + inc) target := by omega
      have hv2 : (parseIntJS (toLocaleStringJS (min (v + inc) target))).getD 0
          = min (v + inc) target := by
        rw [hrt _ hlo2 h1]; rfl
      have hdist2 : (target - min (v + inc) target).natAbs < n := by
        have hd : (target - min (v + inc) target).natAbs + 1
            ≤ (target - v).natAbs := by
          rcases le_total (v + inc) target with h | h
          · rw [min_eq_left h]; omega
          · rw [min_eq_right h]; omega
        omega
      simp only [animateLoop, hstep]
      exact ih _ _ hv2 hlo2 h1 hdist2

/-- Downward animation run: the mirror image of `animateLoop_up`. -/
theorem animateLoop_down (inc target hi : Int) (hinc : 1 ≤ inc)
    (hrt : ∀ v : Int, target ≤ v → v ≤ hi →
      parseIntJS (toLocaleStringJS v) = some v) :
    ∀ (fuel : Nat) (text : String) (v : Int),
      (parseIntJS text).getD 0 = v → target ≤ v → v ≤ hi →
      (target - v).natAbs < fuel →
      animateLoop inc false target fuel text
        = some (toLocaleStringJS target) := by
  intro fuel
  induction fuel with
  | zero => intro text v _ _ _ hdist; omega
  | succ n ih =>
    intro text v hv hlo hhi hdist
    by_cases heq : v = target
    · have hstep : animateStep inc false target text = Option.none := by
        simp [animateStep, hv, heq]
      simp only [animateLoop, hstep]
    · have hvgt : target < v := lt_of_le_of_ne hlo (Ne.symm heq)
      have hstep : animateStep inc false target text
          = some (toLocaleStringJS (max (v - inc) target)) := by
        simp [animateStep, hv, hvgt]
      have h1 : target ≤ max (v - inc) target := le_max_right _ _
      have h2 : max (v - inc) target ≤ v - 1 := max_le (by omega) (by omega)
      have hhi2 : max (v - inc) target ≤ hi := by omega
      have hv2 : (parseIntJS (toLocaleStringJS (max (v - inc) target))).getD 0
          = max (v - inc) target := by
        rw [hrt _ h1 hhi2]; rfl
      have hdist2 : (target - max (v - inc) target).natAbs < n := by
        have hd : (target - max (v - inc) target).natAbs + 1
            ≤ (target - v).natAbs := by
          rcases le_total target (v - inc) with h | h
          · rw [max_eq_left h]; omega
          · rw [max_eq_right h]; omega
        omega
      simp only [animateLoop, hstep]
      exact ih _ _ hv2 h1 hhi2 hdist2

/-- Claim C8 (amended): when every value between the start and the target
parses back from its localized rendering (no grouping separator is
re-read, e.g. all values in `[0, 999]`), the animation terminates within
`|target - start| + 1` frames with final text
`targetValue.toLocaleString()`, and each frame moves the displayed value
strictly toward the target by at least `1` without overshooting. -/
theorem animate_number_bounded_terminates
    (text : String) (target c0 : Int) (fuel : Nat)
    (hc0 : (parseIntJS text).getD 0 = c0)
    (hrt : ∀ v : Int, min c0 target ≤ v → v ≤ max c0 target →
      parseIntJS (toLocaleStringJS v) = some v)
    (hfuel : (target - c0).natAbs < fuel) :
    animateNumber fuel text target = some (toLocaleStringJS target) ∧
    (∀ (s : String) (v : Int), parseIntJS s = some v →
      min c0 target ≤ v → v ≤ max c0 target → v ≠ target →
      ∃ v2 : Int,
        animateStep (animInc c0 target) (decide (target > c0)) target s
          = some (toLocaleStringJS v2) ∧
        (target - v2).natAbs + 1 ≤ (target - v).natAbs ∧
        min c0 target ≤ v2 ∧ v2 ≤ max c0 target) := by
  constructor
  · simp only [animateNumber, hc0]
    rcases lt_trichotomy c0 target with hlt | heq2 | hgt
    · have hdec : decide (target > c0) = true := by simp [hlt]
      rw [hdec]
      have hrt2 : ∀ v : Int, c0 ≤ v → v ≤ target →
          parseIntJS (toLocaleStringJS v) = some v := by
        intro v h1 h2
        exact hrt v (by rw [min_eq_left hlt.le]; exact h1)
          (by rw [max_eq_right hlt.le]; exact h2)
      exact animateLoop_up _ _ _ (animInc_pos c0 target (ne_of_lt hlt)) hrt2
        fuel text c0 hc0 le_rfl hlt.le hfuel
    · subst heq2
      have hdec : decide (c0 > c0) = false := by simp
      rw [hdec]
      obtain ⟨n, rfl⟩ : ∃ n, fuel = n + 1 := ⟨fuel - 1, by omega⟩
      have hstep : animateStep (animInc c0 c0) false c0 text
          = Option.none := by
        simp [animateStep, hc0]
      simp only [animateLoop, hstep]
    · have hdec : decide (target > c0) = false := by
        simp [not_lt.mpr hgt.le]
      rw [hdec]
      have hrt2 : ∀ v : Int, target ≤ v → v ≤ c0 →
          parseIntJS (toLocaleStringJS v) = some v := by
        intro v h1 h2
        exact hrt v (by rw [min_eq_right hgt.le]; exact h1)
          (by rw [max_eq_left hgt.le]; exact h2)
      exact animateLoop_down _ _ _ (animInc_pos c0 target (ne_of_gt hgt)) hrt2
        fuel text c0 hc0 hgt.le le_rfl hfuel
  · intro s v hps hlov hhiv hneq
    have hv : (parseIntJS s).getD 0 = v := by rw [hps]; rfl
    have hincnn := animInc_nonneg c0 target
    rcases lt_trichotomy c0 target with hlt | heq2 | hgt
    · have hinc := animInc_pos c0 target (ne_of_lt hlt)
      rw [min_eq_left hlt.le] at hlov
      rw [max_eq_right hlt.le] at hhiv
      have hvlt : v < target := lt_of_le_of_ne hhiv hneq
      have hdec : decide (target > c0) = true := by simp [hlt]
      rw [hdec]
      refine ⟨min (v + animInc c0 target) target, ?_, ?_, ?_, ?_⟩
      · simp [animateStep, hv, hvlt]
      · rcases le_total (v + animInc c0 target) target with h | h
        · rw [min_eq_left h]; omega
        · rw [min_eq_right h]; omega
      · rw [min_eq_left hlt.le]
        exact le_min (by omega) hlt.le
      · rw [max_eq_right hlt.le]
        exact min_le_right _ _
    · subst heq2
      simp only [min_self] at hlov
      simp only [max_self] at hhiv
      exact absurd (le_antisymm hhiv hlov) hneq
    · have hinc := animInc_pos c0 target (ne_of_gt hgt)
      rw [min_eq_right hgt.le] at hlov
      rw [max_eq_left hgt.le] at hhiv
      have hvgt : target < v := lt_of_le_of_ne hlov (Ne.symm hneq)
      have hdec : decide (target > c0) = false := by
        simp [not_lt.mpr hgt.le]
      rw [hdec]
      refine ⟨max (v - animInc c0 target) target, ?_, ?_, ?_, ?_⟩
      · simp [animateStep, hv, hvgt]
      · rcases le_total target (v - animInc c0 target) with h | h
        · rw [max_eq_left h]; omega
        · rw [max_eq_right h]; omega
      · rw [min_eq_right hgt.le]
        exact le_max_right _ _
      · rw [max_eq_left hgt.le]
        exact max_le (by omega) hgt.le

/-- Witness for the amended C8: empty initial text (parsing to `0`) and
target `7` — all intermediate values round-trip, and 8 frames finish the
animation at `"7"`. -/
theorem animate_number_bounded_terminates_wit :
    ((parseIntJS "").getD 0 = (0 : Int)) ∧
    (((7 : Int) - 0).natAbs < 8) ∧
    animateNumber 8 "" 7 = some (toLocaleStringJS 7) := by
  refine ⟨rfl, by decide, ?_⟩
  refine (animate_number_bounded_terminates "" 7 0 8 rfl ?_ (by decide)).1
  intro v h1 h2
  have hm : min (0 : Int) 7 = 0 := by decide
  have hM : max (0 : Int) 7 = 7 := by decide
  rw [hm] at h1
  rw [hM] at h2
  interval_cases v <;> rfl

end BotControl
